import Mathlib

/-!
Shallow embedding of `src/prefect/backend/flow_run.py` (the client-side
run-tracking layer): the `FlowRun` class with its two-level task-run cache,
the `fail_flow_run_on_exception` execution guard, the mapped-sequence
iterator `iter_mapped`, the bulk fetch `get_all`, and the orchestration
entry point `execute_flow_run`.

Remote collaborators (the GraphQL client, `TaskRun` queries, the secrets
provider, the flow-storage loader, the graph-execution engine) are modelled
as oracle parameters: pure functions supplied to each operation.  Machine
effects (remote state writes, run-log writes, remote fetches) are returned
explicitly as trace values so that theorems can count them.
-/

set_option autoImplicit false

deriving instance DecidableEq for Except

/-- State of a flow run or task run (`prefect.engine.state.State`), reduced
to the constructors and predicates this module consumes:  `is_running`,
`is_finished` and `is_mapped`.  `Failed` and `Cancelled` carry their
message, as the guard constructs them with one. -/
inductive RunState where
  | Scheduled
  | Pending
  | Running
  | Success
  | Failed (msg : String)
  | Cancelled (msg : String)
  | Mapped
deriving DecidableEq, Repr

/-- Predicate contract of `State.is_running()`. -/
def RunState.is_running : RunState → Bool
  | .Running => true
  | _ => false

/-- Predicate contract of `State.is_finished()`: terminal states. -/
def RunState.is_finished : RunState → Bool
  | .Success => true
  | .Failed _ => true
  | .Cancelled _ => true
  | _ => false

/-- Predicate contract of `State.is_mapped()`. -/
def RunState.is_mapped : RunState → Bool
  | .Mapped => true
  | _ => false

/-- A fetched task-run record (`prefect.backend.task_run.TaskRun`), an
external entity: one attempt of one task (or one mapped element) within a
run.  `map_index = -1` is the unmapped/base record. -/
structure TaskRun where
  task_run_id : String
  task_slug : String
  map_index : Int
  state : RunState
deriving DecidableEq, Repr

/-- One structured run-log entry as written by `client.write_run_logs`
(lines 108-117 of the source). -/
structure LogEntry where
  flow_run_id : String
  name : String
  message : String
  level : String
deriving DecidableEq, Repr

/-- Character-list substitution of every occurrence of the five-character
placeholder `\x7bexc\x7d` by `exc`. -/
def substExc (exc : List Char) : List Char → List Char
  | c1 :: c2 :: c3 :: c4 :: c5 :: rest =>
      if c1 = Char.ofNat 123 ∧ c2 = 'e' ∧ c3 = 'x' ∧ c4 = 'c' ∧ c5 = Char.ofNat 125 then
        exc ++ substExc exc rest
      else
        c1 :: substExc exc (c2 :: c3 :: c4 :: c5 :: rest)
  | l => l

/-- Models Python `message.format(exc=...)` for templates whose only
placeholder is the literal text `\x7bexc\x7d` (true of every template in the
source): each occurrence of the placeholder is replaced by the argument. -/
def fmtMessage (template exc : String) : String :=
  String.mk (substExc exc.data template.data)

/-- The data the `from_flow_run_id` GraphQL query yields for one run
(lines 196-209 of the source), after the state is deserialized. -/
structure RunData where
  name : String
  flow_name : String
  flow_storage : Option (List String)
  flow_run_config : Option String
  serialized_state : RunState
deriving DecidableEq, Repr

/-- The `FlowRun` object: static fields plus the two-level task-run cache
(`_task_runs` is the id-to-record dict, `_task_slug_to_task_run_ids` the
slug-to-set-of-ids dict; both are modelled as insertion-ordered association
lists, which is how CPython dicts and the deterministic fragment of sets
behave).  `flow_storage` keeps just the storage-declared secret names. -/
structure FlowRun where
  flow_run_id : String
  name : String
  flow_id : String
  flow_name : String
  flow_storage : Option (List String)
  flow_run_config : Option String
  state : RunState
  _task_run_ids : Option (List String)
  _task_runs : List (String × TaskRun)
  _task_slug_to_task_run_ids : List (String × List String)
deriving DecidableEq, Repr

/-- Dict write `d[k] = v`: replace the value at the first occurrence of the
key, else append the new pair (CPython dict update order). -/
def setRun : List (String × TaskRun) → String → TaskRun → List (String × TaskRun)
  | [], k, v => [(k, v)]
  | (k0, v0) :: rest, k, v =>
      if k0 = k then (k0, v) :: rest else (k0, v0) :: setRun rest k v

/-- Dict lookup `d[k]` / `d.get(k)`: first value stored at the key. -/
def findRun : List (String × TaskRun) → String → Option TaskRun
  | [], _ => none
  | (k0, v0) :: rest, k => if k0 = k then some v0 else findRun rest k

/-- Set add `s.add(x)`: append only when absent. -/
def addId (ids : List String) (id : String) : List String :=
  if id ∈ ids then ids else ids ++ [id]

/-- `defaultdict(set)` write `d[k].add(x)`: add to the set at the key,
creating a fresh singleton set when the key is absent. -/
def setSlug : List (String × List String) → String → String → List (String × List String)
  | [], s, id => [(s, [id])]
  | (s0, ids) :: rest, s, id =>
      if s0 = s then (s0, addId ids id) :: rest else (s0, ids) :: setSlug rest s id

/-- Lookup in the slug index; `none` when the key is absent. -/
def findSlugIds : List (String × List String) → String → Option (List String)
  | [], _ => none
  | (s0, ids) :: rest, s => if s0 = s then some ids else findSlugIds rest s

/-- The set of ids cached for a slug (empty when the key is absent). -/
def FlowRun.slugIds (fr : FlowRun) (s : String) : List String :=
  (findSlugIds fr._task_slug_to_task_run_ids s).getD []

/-- Lines 155-157: `_add_task_run` inserts a record into both levels of the
cache. -/
def FlowRun._add_task_run (fr : FlowRun) (t : TaskRun) : FlowRun :=
  { fr with
    _task_runs := setRun fr._task_runs t.task_run_id t,
    _task_slug_to_task_run_ids :=
      setSlug fr._task_slug_to_task_run_ids t.task_slug t.task_run_id }

/-- Lines 122-153: `FlowRun.__init__`.  The cache starts empty and every
record of the `task_runs` argument is inserted through `_add_task_run`. -/
def FlowRun.init (flow_run_id name flow_id flow_name : String)
    (flow_storage : Option (List String)) (flow_run_config : Option String)
    (state : RunState) (task_runs : List TaskRun) : FlowRun :=
  task_runs.foldl FlowRun._add_task_run
    { flow_run_id := flow_run_id
      name := name
      flow_id := flow_id
      flow_name := flow_name
      flow_storage := flow_storage
      flow_run_config := flow_run_config
      state := state
      _task_run_ids := none
      _task_runs := []
      _task_slug_to_task_run_ids := [] }

/-- Python-level failures surfaced by this module. -/
inductive PyErr where
  /-- `TypeError`: a call omits a required positional argument. -/
  | typeMissingArg (callee arg : String)
  /-- Lines 211-215: `ValueError` on a bad query result. -/
  | badQueryResult
  /-- Line 33: `RuntimeError` when the run is already running. -/
  | alreadyRunning
  /-- An exception (by its repr) propagating out of a guarded stage. -/
  | raised (exc : String)
  /-- A `KeyboardInterrupt` propagating out of a guarded stage. -/
  | raisedInterrupt
  /-- `UnboundLocalError`: a local variable referenced before assignment. -/
  | unboundLocal (nm : String)
deriving DecidableEq, Repr

/-- Lines 173-245: `FlowRun.from_flow_run_id`.  `data` is the oracle for the
GraphQL query result (`none` models the falsy result of lines 211-215) and
`staticTaskRuns` the oracle for the static (unmapped) task-run query of
lines 217-225.

The source can never return: the constructor call at lines 235-245 passes
`flow_run_id`, `task_runs`, `state`, `flow_storage`, `flow_name`,
`flow_run_config` and `name` but omits the required `flow_id` parameter of
`__init__` (line 126), so Python raises
`TypeError: __init__() missing 1 required positional argument: 'flow_id'`
before the object is built.  The embedding returns that error after
faithfully reaching the call site. -/
def FlowRun.from_flow_run_id (flow_run_id : String) (data : Option RunData)
    (staticTaskRuns : List TaskRun) (load_static_tasks : Bool)
    (extraTaskRuns : List TaskRun) : Except PyErr FlowRun :=
  match data with
  | none => .error .badQueryResult
  | some _ =>
      let task_runs := (if load_static_tasks then staticTaskRuns else []) ++ extraTaskRuns
      -- lines 235-245: `cls(flow_run_id=..., task_runs=..., state=...,
      -- flow_storage=..., flow_name=..., flow_run_config=..., name=...)`
      -- with no `flow_id=...` item: TypeError, unconditionally.
      let _ := (flow_run_id, task_runs)
      .error (.typeMissingArg ("FlowRun.__init__") ("flow_id"))

/-- Outcome of the unit of work wrapped by the guard: it returns, raises
`KeyboardInterrupt`, or raises some other exception carried as its repr. -/
inductive UnitOutcome where
  | ok
  | interrupt
  | err (exc : String)
deriving DecidableEq, Repr

/-- What escapes the guard after its side effects. -/
inductive GuardOutcome where
  | completed
  | raisedInterrupt
  | raisedErr (exc : String)
  | raisedPy (e : PyErr)
deriving DecidableEq, Repr

/-- Remote writes performed by one pass through the guard. -/
structure GuardEffects where
  stateWrites : List RunState
  logWrites : List LogEntry
deriving DecidableEq, Repr

/-- Lines 88-118: the `fail_flow_run_on_exception` context manager.  `data`
and `staticTaskRuns` are the oracles consumed by the fresh
`FlowRun.from_flow_run_id(flow_run_id)` re-read performed inside each
handler (with its default `load_static_tasks=True`).  Returns the remote
writes performed and what propagates to the caller.

Because `from_flow_run_id` raises `TypeError` (missing `flow_id`) on every
call, both handlers crash while evaluating their `if` condition: no state
write or log write happens and the `TypeError` replaces the original
exception. -/
def fail_flow_run_on_exception (flow_run_id : String) (message : Option String)
    (data : Option RunData) (staticTaskRuns : List TaskRun)
    (unit : UnitOutcome) : GuardEffects × GuardOutcome :=
  let msg := message.getD ("Flow run failed with \x7bexc\x7d")
  match unit with
  | .ok => (⟨[], []⟩, .completed)
  | .interrupt =>
      match FlowRun.from_flow_run_id flow_run_id data staticTaskRuns true [] with
      | .error e => (⟨[], []⟩, .raisedPy e)
      | .ok fr =>
          if fr.state.is_running then
            (⟨[RunState.Cancelled ("Keyboard interrupt.")], []⟩, .raisedInterrupt)
          else
            (⟨[], []⟩, .raisedInterrupt)
  | .err exc =>
      match FlowRun.from_flow_run_id flow_run_id data staticTaskRuns true [] with
      | .error e => (⟨[], []⟩, .raisedPy e)
      | .ok fr =>
          if fr.state.is_running then
            let m := fmtMessage msg exc
            (⟨[RunState.Failed m],
              [⟨flow_run_id, ("prefect.backend.api.flow_run.execute_flow_run"), m, ("ERROR")⟩]⟩,
             .raisedErr exc)
          else
            (⟨[], []⟩, .raisedErr exc)

/-- A `prefect.Task` argument, reduced to the only attribute the module
reads: its `slug`, which may be unset (`None`, modelled as `none`) or empty
(both falsy). -/
structure TaskObj where
  slug : Option String
deriving DecidableEq, Repr

/-- Python truthiness of an optional string: `None` and the empty string
are falsy. -/
def optFalsy : Option String → Bool
  | none => true
  | some s => s = ""

/-- Errors raised by `FlowRun.get` (all `ValueError` in the source) plus the
errors its remote lookups can surface. -/
inductive GetErr where
  /-- Lines 265-270: the task has no slug and none was supplied. -/
  | taskWithoutSlug
  /-- Lines 272-277: `task` and `task_slug` disagree. -/
  | slugConflictTask
  /-- Lines 292-298: record found by id has a different slug. -/
  | slugConflictResult (given found : String)
  /-- `KeyError`: an id in the slug index is missing from the id index. -/
  | keyError (id : String)
  /-- The remote point lookup found nothing (raised by the `TaskRun`
  collaborator with its default `error_on_empty`). -/
  | remoteEmpty (arg : String)
  /-- Lines 323-325: no identifying argument given. -/
  | noArgs
deriving DecidableEq, Repr

/-- A remote fetch performed by `FlowRun.get`. -/
inductive RemoteCall where
  | byId (task_run_id : String)
  | bySlug (task_slug : String)
deriving DecidableEq, Repr

/-- Result of `FlowRun.get`: the returned record (or error), the run with
its possibly updated cache, and the trace of remote fetches performed. -/
structure GetResult where
  result : Except GetErr TaskRun
  run : FlowRun
  remoteCalls : List RemoteCall
deriving DecidableEq, Repr

/-- Lines 264-282: resolution between the `task` and `task_slug` arguments
of `FlowRun.get`, yielding the effective slug (or `none` when neither gives
one). -/
def resolveSlugArgs : Option TaskObj → Option String → Except GetErr (Option String)
  | none, ts => .ok ts
  | some tk, ts =>
      if optFalsy tk.slug && optFalsy ts then .error .taskWithoutSlug
      else
        match ts with
        | some s => if tk.slug ≠ some s then .error .slugConflictTask else .ok (some s)
        | none => .ok tk.slug

/-- Lines 309-312: scan of the cached ids of a mapped family for the base
record (`map_index == -1`), reading each record with `self.task_runs[...]`
(a `KeyError` when an id is not in the id index). -/
def lookupBase (fr : FlowRun) : List String → Except GetErr (Option TaskRun)
  | [] => .ok none
  | id :: rest =>
      match findRun fr._task_runs id with
      | none => .error (.keyError id)
      | some t => if t.map_index = -1 then .ok (some t) else lookupBase fr rest

/-- Lines 284-301 tail: slug-conflict check against the record obtained by
id, then read-through insertion.  On conflict the error is raised before
`_add_task_run` runs. -/
def finishById (fr : FlowRun) (slugArg : Option String) (r : TaskRun)
    (calls : List RemoteCall) : GetResult :=
  match slugArg with
  | some s =>
      if r.task_slug ≠ s then ⟨.error (.slugConflictResult s r.task_slug), fr, calls⟩
      else ⟨.ok r, fr._add_task_run r, calls⟩
  | none => ⟨.ok r, fr._add_task_run r, calls⟩

/-- Lines 247-325: `FlowRun.get`.  `remoteById` is the oracle for
`TaskRun.from_task_run_id` and `remoteBySlug` for
`TaskRun.from_task_slug(task_slug, flow_run_id)`; `none` models their
error-on-empty failure. -/
def FlowRun.get (fr : FlowRun) (task : Option TaskObj) (task_slug : Option String)
    (task_run_id : Option String) (remoteById : String → Option TaskRun)
    (remoteBySlug : String → Option TaskRun) : GetResult :=
  match resolveSlugArgs task task_slug with
  | .error e => ⟨.error e, fr, []⟩
  | .ok slugArg =>
      match task_run_id with
      | some id =>
          -- lines 284-301: cached record if available, else query by id
          match findRun fr._task_runs id with
          | some r => finishById fr slugArg r []
          | none =>
              match remoteById id with
              | none => ⟨.error (.remoteEmpty id), fr, [.byId id]⟩
              | some r => finishById fr slugArg r [.byId id]
      | none =>
          match slugArg with
          | some s =>
              -- lines 303-321: mapped-family base lookup, else fetch by slug
              let ids := fr.slugIds s
              match (if ids.length > 1 then lookupBase fr ids else .ok none) with
              | .error e => ⟨.error e, fr, []⟩
              | .ok (some r) => ⟨.ok r, fr, []⟩
              | .ok none =>
                  match remoteBySlug s with
                  | none => ⟨.error (.remoteEmpty s), fr, [.bySlug s]⟩
                  | some r => ⟨.ok r, fr._add_task_run r, [.bySlug s]⟩
          | none => ⟨.error .noArgs, fr, []⟩

/-- Errors raised by `FlowRun.iter_mapped`. -/
inductive IterErr where
  /-- Lines 334-338: `task` and `task_slug` disagree. -/
  | slugConflict
  /-- Lines 341-342: neither `task` nor `task_slug` given. -/
  | noSlug
  /-- The base-record query (with its default `error_on_empty`) found
  nothing. -/
  | emptyBase
  /-- Lines 352-356: `TypeError`, the base record is not mapped. -/
  | notMapped (task_run_id : String)
deriving DecidableEq, Repr

/-- Result of draining `FlowRun.iter_mapped`: the yielded records (or the
error), the run with its possibly updated cache, and the map indices
fetched remotely, in order (`-1` is the base-record fetch). -/
structure IterResult where
  result : Except IterErr (List TaskRun)
  run : FlowRun
  fetched : List Int
deriving DecidableEq, Repr

/-- Lines 333-342: argument resolution of `iter_mapped` (unlike `get`, a
given `task` always overwrites `task_slug` with `task.slug`). -/
def iterResolveSlug : Option TaskObj → Option String → Except IterErr String
  | some tk, ts =>
      match ts with
      | some s =>
          if tk.slug ≠ some s then .error .slugConflict
          else
            match tk.slug with
            | some s2 => .ok s2
            | none => .error .noSlug
      | none =>
          match tk.slug with
          | some s => .ok s
          | none => .error .noSlug
  | none, ts =>
      match ts with
      | some s => .ok s
      | none => .error .noSlug

/-- Lines 358-374: the generator loop of `iter_mapped`, starting at map
index 0.  `remote i` is the oracle for the per-index query
`TaskRun.query_for_task_runs(where=where(i), error_on_empty=False)`; `none`
models the empty result that breaks the loop.  The loop itself has no bound
(`while task_run` is always truthy of a fetched record), so the embedding
carries `fuel`; every theorem quantifies over sufficient fuel. -/
def iterMappedLoop (remote : Int → Option TaskRun) (cache_results : Bool) :
    FlowRun → Nat → Nat → List TaskRun × FlowRun × List Int
  | fr, _, 0 => ([], fr, [])
  | fr, i, fuel + 1 =>
      match remote (Int.ofNat i) with
      | none => ([], fr, [Int.ofNat i])
      | some t =>
          let fr2 := if cache_results then fr._add_task_run t else fr
          let rest := iterMappedLoop remote cache_results fr2 (i + 1) fuel
          (t :: rest.1, rest.2.1, Int.ofNat i :: rest.2.2)

/-- Lines 327-374: `FlowRun.iter_mapped`, drained to a list.  `remote slug
i` is the oracle for the `(task slug, flow run id, map index)` point query;
the base record is fetched at index `-1` with error-on-empty semantics. -/
def FlowRun.iter_mapped (fr : FlowRun) (task : Option TaskObj)
    (task_slug : Option String) (cache_results : Bool)
    (remote : String → Int → Option TaskRun) (fuel : Nat) : IterResult :=
  match iterResolveSlug task task_slug with
  | .error e => ⟨.error e, fr, []⟩
  | .ok slug =>
      match remote slug (-1) with
      | none => ⟨.error .emptyBase, fr, [-1]⟩
      | some base =>
          if base.state.is_mapped = false then
            ⟨.error (.notMapped base.task_run_id), fr, [-1]⟩
          else
            let r := iterMappedLoop (remote slug) cache_results fr 0 fuel
            ⟨.ok r.1, r.2.1, -1 :: r.2.2⟩

/-- Errors surfaced by the `task_run_ids` property. -/
inductive IdsErr where
  /-- Lines 420-428: the query result carried no `task_run` data; the
  warning is logged and the comprehension then raises on `None`. -/
  | queryFailed
deriving DecidableEq, Repr

/-- Lines 397-434: the `task_run_ids` property.  `remoteIds` is the oracle
for the id-listing query (`none` models a result with no data).  Returns
the ids and the run, whose `_task_run_ids` is filled only when the cached
value was falsy, the query succeeded and the run state `is_finished()`. -/
def FlowRun.task_run_ids (fr : FlowRun) (remoteIds : Option (List String)) :
    Except IdsErr (List String) × FlowRun :=
  match fr._task_run_ids with
  | some (x :: xs) => (.ok (x :: xs), fr)
  | _ =>
      match remoteIds with
      | none => (.error .queryFailed, fr)
      | some ids =>
          (.ok ids, if fr.state.is_finished then { fr with _task_run_ids := some ids } else fr)

/-- Errors raised by `get_all`. -/
inductive GetAllErr where
  /-- Lines 377-381: `ValueError`, more than 1000 task runs. -/
  | resourceLimit
  /-- The id-listing query failed. -/
  | ids (e : IdsErr)
deriving DecidableEq, Repr

/-- Lines 376-395: `get_all`.  `remoteIds` feeds the `task_run_ids`
property; `remoteBulk` is the oracle for the single filtered bulk query.
Returns the records (or error), the updated run, and whether the bulk
fetch was performed. -/
def FlowRun.get_all (fr : FlowRun) (remoteIds : Option (List String))
    (remoteBulk : List TaskRun) : Except GetAllErr (List TaskRun) × FlowRun × Bool :=
  match fr.task_run_ids remoteIds with
  | (.error e, fr1) => (.error (.ids e), fr1, false)
  | (.ok ids, fr1) =>
      if ids.length > 1000 then (.error .resourceLimit, fr1, false)
      else (.ok remoteBulk, remoteBulk.foldl FlowRun._add_task_run fr1, true)

/-- Lines 159-167: `update`, a refreshed copy via `from_flow_run_id` with
`load_static_tasks=False` and the current cache's records carried over.
Inherits the constructor `TypeError` of `from_flow_run_id`. -/
def FlowRun.update (fr : FlowRun) (data : Option RunData) : Except PyErr FlowRun :=
  FlowRun.from_flow_run_id fr.flow_run_id data [] false (fr._task_runs.map (fun p => p.2))

/-- A secrets mapping (dict of secret name to value); values are opaque and
modelled as naturals. -/
def Smap : Type := String → Option Nat

/-- The empty dict. -/
def emptySmap : Smap := fun _ => none

/-- Dict write `d[k] = v` on a value-modelled dict. -/
def updateSmap (m : Smap) (k : String) (v : Nat) : Smap :=
  fun q => if q = k then some v else m q

/-- Lines 36-44 (success path): `secrets = prefect.context.get("secrets",
\x7b\x7d)` seeded with the ambient secrets, then `secrets[secret] =
PrefectSecret(name=secret).run()` for each storage-declared secret name,
with `resolve` the oracle for the secret provider. -/
def load_storage_secrets (ambient : Smap) (resolve : String → Nat)
    (names : List String) : Smap :=
  names.foldl (fun m s => updateSmap m s (resolve s)) ambient

/-- Lines 59-64: the dict merge `\x7b**secrets, **run_kwargs["context"].get(
"secrets", \x7b\x7d)\x7d` — caller-supplied entries override the
accumulated secrets. -/
def merged_secrets (secrets caller : Smap) : Smap :=
  fun k =>
    match caller k with
    | some v => some v
    | none => secrets k

/-- Modelled from the spec (section 4.5, step 4): the `secrets` sub-mapping
is the union of ambient secrets, storage-declared secrets and
caller-supplied overrides, with caller-supplied values taking precedence on
key collision (and storage-declared values over ambient ones).  Stated for
comparison with the source-derived `merged_secrets` composition. -/
def spec_union_secrets (ambient : Smap) (storageNames : List String)
    (resolve : String → Nat) (caller : Smap) : Smap :=
  fun k =>
    match caller k with
    | some v => some v
    | none => if k ∈ storageNames then some (resolve k) else ambient k

/-- The caller-supplied `context` dict of `execute_flow_run`, as a value:
only its `secrets` key is touched by the module. -/
structure CtxVal where
  secrets : Option Smap

/-- The caller-supplied keyword options of `execute_flow_run`, as a value:
the `context` and `executor` keys are the ones the module touches. -/
structure KwargsVal where
  context : Option CtxVal
  executor : Option String

/-- Lines 56-66 as a value-level function: deep-copy the caller options
(copies of pure values are the values themselves), default the `context`
key, overwrite its `secrets` with the merge, and `setdefault` the
executor from the flow. -/
def build_run_kwargs (kwargs : KwargsVal) (secrets : Smap)
    (flowExecutor : String) : KwargsVal :=
  let ctx := kwargs.context.getD ⟨none⟩
  let caller := ctx.secrets.getD emptySmap
  { context := some ⟨some (merged_secrets secrets caller)⟩,
    executor := some (kwargs.executor.getD flowExecutor) }

/-!
Heap model of lines 56-66.  The value-level `build_run_kwargs` cannot
express the in-place dict writes that `copy.deepcopy` protects the caller
from, so the same lines are also modelled against an explicit store: the
kwargs dicts and context dicts live in two address-indexed heaps, the
caller passes the address of its kwargs dict, `deepcopy` allocates fresh
addresses at the end of each heap, and the three writes of the source
(`run_kwargs["context"] = ...`, `run_kwargs["context"]["secrets"] = ...`,
`run_kwargs.setdefault("executor", ...)`) are `List.set` updates at the
copied addresses.
-/

/-- A context dict on the heap (`secrets` key holds a value-modelled dict,
which the source replaces wholesale and never mutates in place). -/
structure CtxObj where
  secrets : Option Smap

/-- A kwargs dict on the heap; its `context` key holds the address of a
context dict in the context heap. -/
structure KwObj where
  context : Option Nat
  executor : Option String

/-- Heap read: the object at an address (an index), `none` when the
address is unallocated. -/
def heapGet {α : Type} : List α → Nat → Option α
  | [], _ => none
  | x :: _, 0 => some x
  | _ :: rest, n + 1 => heapGet rest n

/-- The two dict heaps; an address is an index, allocation appends. -/
structure Store where
  kwargsHeap : List KwObj
  ctxHeap : List CtxObj

/-- `copy.deepcopy(kwargs)` at address `a`: fresh copies of the kwargs dict
and (when present) its context dict, at fresh addresses. -/
def deepcopyKwargs (st : Store) (a : Nat) : Store × Nat :=
  match heapGet st.kwargsHeap a with
  | none => (st, a)
  | some kw =>
      match kw.context with
      | none =>
          (⟨st.kwargsHeap ++ [⟨none, kw.executor⟩], st.ctxHeap⟩, st.kwargsHeap.length)
      | some ca =>
          let ctx := (heapGet st.ctxHeap ca).getD ⟨none⟩
          (⟨st.kwargsHeap ++ [⟨some st.ctxHeap.length, kw.executor⟩],
            st.ctxHeap ++ [ctx]⟩,
           st.kwargsHeap.length)

/-- Lines 56-66 against the store: deep copy, then the three writes, all at
the copied (fresh) addresses.  Returns the store and the address of
`run_kwargs`. -/
def build_run_kwargs_heap (st : Store) (a : Nat) (secrets : Smap)
    (flowExecutor : String) : Store × Nat :=
  let dc := deepcopyKwargs st a
  let st1 := dc.1
  let ra := dc.2
  match heapGet st1.kwargsHeap ra with
  | none => (st1, ra)
  | some kw =>
      -- run_kwargs["context"] = run_kwargs.get("context", \x7b\x7d)
      let st2ca : Store × Nat :=
        match kw.context with
        | some ca => (st1, ca)
        | none =>
            (⟨st1.kwargsHeap.set ra ⟨some st1.ctxHeap.length, kw.executor⟩,
              st1.ctxHeap ++ [⟨none⟩]⟩,
             st1.ctxHeap.length)
      let st2 := st2ca.1
      let ca := st2ca.2
      let ctx := (heapGet st2.ctxHeap ca).getD ⟨none⟩
      let caller := ctx.secrets.getD emptySmap
      -- run_kwargs["context"]["secrets"] = \x7b**secrets, **...\x7d
      let st3 : Store := ⟨st2.kwargsHeap, st2.ctxHeap.set ca ⟨some (merged_secrets secrets caller)⟩⟩
      -- run_kwargs.setdefault("executor", flow.executor)
      let st4 : Store :=
        match heapGet st3.kwargsHeap ra with
        | some kw2 =>
            if kw2.executor = none then
              ⟨st3.kwargsHeap.set ra ⟨kw2.context, some flowExecutor⟩, st3.ctxHeap⟩
            else st3
        | none => st3
      (st4, ra)

/-- A loaded flow definition, reduced to the attributes `execute_flow_run`
reads on the success path: its configured executor (the environment's
behavior is an oracle of the environment stage). -/
structure FlowModel where
  executor : String
deriving DecidableEq, Repr

/-- Observable actions of `execute_flow_run`: invocations of the engine or
of the legacy environment, and the guard's remote writes. -/
inductive Ev where
  | envSetup
  | envExecute
  | runnerRun
  | stateWrite (s : RunState)
  | logWrite (e : LogEntry)
deriving DecidableEq, Repr

/-- Oracle bundle for `execute_flow_run`: the remote query results and the
outcomes of every external collaborator. -/
structure ExecEnv where
  /-- Query result consumed by `from_flow_run_id` (also by the guard's
  fresh re-reads). -/
  flow_run_data : Option RunData
  /-- Static (unmapped) task-run records for `load_static_tasks`. -/
  static_task_runs : List TaskRun
  /-- `prefect.context.get("secrets", \x7b\x7d)`. -/
  ambient_secrets : Smap
  /-- `PrefectSecret(name=s).run()`: a value, or the repr of the raised
  exception. -/
  resolve_secret : String → Except String Nat
  /-- `flow_run.flow_storage.get_flow(flow_run.flow_name)`. -/
  get_flow : String → Except String FlowModel
  /-- `flow.environment.setup(flow)`: `none` is success, `some exc` the
  repr of the raised exception. -/
  env_setup : Option String
  /-- `flow.environment.execute(flow)`. -/
  env_execute : Option String
  /-- `runner_cls(flow=flow).run(**run_kwargs)`: the final state, or the
  repr of the raised exception. -/
  runner_run : KwargsVal → Except String RunState
  /-- Query result consumed by the final `flow_run.update()`. -/
  refreshed_data : Option RunData

/-- One guarded failure: the guard's effects as events, and the error that
propagates (the original exception, or whatever replaced it inside the
handler). -/
def guardFail (flow_run_id msg : String) (env : ExecEnv) (exc : String) :
    List Ev × PyErr :=
  let g := fail_flow_run_on_exception flow_run_id (some msg) env.flow_run_data
    env.static_task_runs (.err exc)
  (g.1.stateWrites.map Ev.stateWrite ++ g.1.logWrites.map Ev.logWrite,
   match g.2 with
   | .raisedPy e => e
   | .raisedErr e => .raised e
   | .raisedInterrupt => .raisedInterrupt
   | .completed => .raised exc)

/-- Lines 36-44: the secrets stage; each resolution is wrapped in its own
guard whose message embeds the secret's repr.  Returns the accumulated
secrets, the guard events, and the propagating error if any. -/
def secrets_stage (env : ExecEnv) (flow_run_id : String) :
    Smap → List String → Smap × List Ev × Option PyErr
  | acc, [] => (acc, [], none)
  | acc, s :: rest =>
      match env.resolve_secret s with
      | .ok v => secrets_stage env flow_run_id (updateSmap acc s v) rest
      | .error exc =>
          let g := guardFail flow_run_id
            ("Failed to load flow secret \x27" ++ s ++ "\x27: \x7bexc\x7d") env exc
          (acc, g.1, some g.2)

/-- Lines 31-85: the body of `execute_flow_run` once the `FlowRun` object
exists (the stages after line 29).  `flowArg` is the caller-supplied flow
(when given, the flow-load stage is skipped) and `kwargs` the caller
options.  Returns the outcome and the event trace.

The local `flow_state` is assigned only on the non-legacy branch (line 76);
the f-string of line 84 reads it unconditionally, so on the legacy branch
the function raises `UnboundLocalError` there — modelled by the final match
on the `Option RunState` that tracks the variable. -/
def execute_flow_run_stages (env : ExecEnv) (flow_run : FlowRun)
    (flowArg : Option FlowModel) (kwargs : KwargsVal) :
    Except PyErr FlowRun × List Ev :=
  -- lines 31-33: refuse a run that is already running
  if flow_run.state.is_running then (.error .alreadyRunning, [])
  else
    -- lines 35-44: secrets stage (only when the storage reference is truthy)
    let names := flow_run.flow_storage.getD []
    match secrets_stage env flow_run.flow_run_id env.ambient_secrets names with
    | (_, evs1, some e) => (.error e, evs1)
    | (secrets, evs1, none) =>
        -- lines 46-54: flow-load stage when no flow was supplied
        let flowR : Except PyErr FlowModel × List Ev :=
          match flowArg with
          | some f => (.ok f, [])
          | none =>
              match env.get_flow flow_run.flow_name with
              | .ok f => (.ok f, [])
              | .error exc =>
                  let g := guardFail flow_run.flow_run_id
                    ("Failed to load flow from storage: \x7bexc\x7d") env exc
                  (.error g.2, g.1)
        match flowR with
        | (.error e, evs2) => (.error e, evs1 ++ evs2)
        | (.ok flow, evs2) =>
            -- lines 56-66: context merge and executor default
            let run_kwargs := build_run_kwargs kwargs secrets flow.executor
            -- lines 68-82: execution stage under the guard
            let step : Option RunState × List Ev × Option PyErr :=
              match flow_run.flow_run_config with
              | some _ =>
                  match env.runner_run run_kwargs with
                  | .ok fs => (some fs, [Ev.runnerRun], none)
                  | .error exc =>
                      let g := guardFail flow_run.flow_run_id
                        ("Failed to execute flow: \x7bexc\x7d") env exc
                      (none, Ev.runnerRun :: g.1, some g.2)
              | none =>
                  match env.env_setup with
                  | some exc =>
                      let g := guardFail flow_run.flow_run_id
                        ("Failed to execute flow: \x7bexc\x7d") env exc
                      (none, Ev.envSetup :: g.1, some g.2)
                  | none =>
                      match env.env_execute with
                      | some exc =>
                          let g := guardFail flow_run.flow_run_id
                            ("Failed to execute flow: \x7bexc\x7d") env exc
                          (none, Ev.envSetup :: Ev.envExecute :: g.1, some g.2)
                      | none => (none, [Ev.envSetup, Ev.envExecute], none)
            match step with
            | (_, evs3, some e) => (.error e, evs1 ++ evs2 ++ evs3)
            | (flow_state, evs3, none) =>
                match flow_state with
                | none =>
                    -- line 84: f-string reads the unassigned local
                    (.error (.unboundLocal ("flow_state")), evs1 ++ evs2 ++ evs3)
                | some _ =>
                    -- line 85: return flow_run.update()
                    match flow_run.update env.refreshed_data with
                    | .ok fr2 => (.ok fr2, evs1 ++ evs2 ++ evs3)
                    | .error e => (.error e, evs1 ++ evs2 ++ evs3)

/-- Lines 19-85: `execute_flow_run`.  Builds the `FlowRun` via
`from_flow_run_id` (line 29) and runs the stages.  The construction
`TypeError` (missing `flow_id`) therefore aborts every call before any
stage runs. -/
def execute_flow_run (env : ExecEnv) (flow_run_id : String)
    (flowArg : Option FlowModel) (kwargs : KwargsVal) :
    Except PyErr FlowRun × List Ev :=
  match FlowRun.from_flow_run_id flow_run_id env.flow_run_data env.static_task_runs true [] with
  | .error e => (.error e, [])
  | .ok fr => execute_flow_run_stages env fr flowArg kwargs

/-!
Concrete fixtures used by the closed evaluations and witnesses below.
-/

/-- Query data of a run in `Running` state (non-legacy config). -/
def wDataRunning : RunData := ⟨"nm", "fl", some [], some ("cfg"), RunState.Running⟩

/-- Query data of a run in terminal `Success` state. -/
def wDataFinished : RunData := ⟨"nm", "fl", some [], some ("cfg"), RunState.Success⟩

/-- Base record of the mapped family at slug `x`. -/
def wBaseC3 : TaskRun := ⟨"tr-base", "x", -1, RunState.Mapped⟩

/-- Mapped element 0 at slug `x`. -/
def wR0C3 : TaskRun := ⟨"tr-0", "x", 0, RunState.Success⟩

/-- Mapped element 1 at slug `x`. -/
def wR1C3 : TaskRun := ⟨"tr-1", "x", 1, RunState.Success⟩

/-- Remote store holding the mapped family `x` exactly at indices 0 and 1. -/
def wRemoteC3 : String → Int → Option TaskRun := fun s i =>
  if s = "x" then
    if i = -1 then some wBaseC3
    else if i = 0 then some wR0C3
    else if i = 1 then some wR1C3
    else none
  else none

/-- Index-to-record map of the family above. -/
def wFC3 : Nat → TaskRun := fun j => if j = 0 then wR0C3 else wR1C3

/-- A run with an empty cache. -/
def wFrEmpty : FlowRun :=
  FlowRun.init ("fr-w") ("nm") ("fid") ("fl") none none RunState.Scheduled []

/-- A base record whose state is not mapped. -/
def wBaseC4 : TaskRun := ⟨"tr-b4", "y", -1, RunState.Success⟩

/-- Remote store where slug `y` has a non-mapped base record. -/
def wRemoteC4 : String → Int → Option TaskRun := fun _ i =>
  if i = -1 then some wBaseC4 else none

/-- A run with an empty cache and an unfinished state, for the bulk-fetch
limit scenario. -/
def wFrC5 : FlowRun :=
  FlowRun.init ("fr-5") ("nm") ("fid") ("fl") none none RunState.Scheduled []

/-- 1001 task-run ids. -/
def wIdsC5 : List String := List.replicate 1001 ("t")

/-- Query data of a legacy run: no run config, storage with no secrets. -/
def wDataC6 : RunData := ⟨"nm", "fl", some [], none, RunState.Scheduled⟩

/-- Oracle bundle where every collaborator succeeds. -/
def wEnvC6 : ExecEnv :=
  { flow_run_data := some wDataC6
    static_task_runs := []
    ambient_secrets := emptySmap
    resolve_secret := fun _ => .ok 0
    get_flow := fun _ => .ok ⟨"ex"⟩
    env_setup := none
    env_execute := none
    runner_run := fun _ => .ok RunState.Success
    refreshed_data := some wDataC6 }

/-- The caller-supplied flow of the legacy scenario. -/
def wFlowC6 : FlowModel := ⟨"ex"⟩

/-- Empty caller options. -/
def wKwargsC6 : KwargsVal := ⟨none, none⟩

/-- The legacy `FlowRun` as `__init__` would have built it. -/
def wFrC6 : FlowRun :=
  FlowRun.init ("fr-6") ("nm") ("fid") ("fl") (some []) none RunState.Scheduled []

/-- Ambient secrets of the merge scenario. -/
def wAmbC7 : Smap := fun k => if k = "A" then some 1 else none

/-- Secret resolution of the merge scenario: every storage secret is 2. -/
def wResC7 : String → Nat := fun _ => 2

/-- Caller-supplied secrets of the merge scenario. -/
def wCallerC7 : Smap := fun k =>
  if k = "B" then some 3 else if k = "C" then some 4 else none

/-- A one-dict store whose kwargs dict has no context. -/
def wStoreC7 : Store := ⟨[⟨none, none⟩], []⟩

/-- Cached base record of the mapped family `x`. -/
def wR1C8 : TaskRun := ⟨"i1", "x", -1, RunState.Mapped⟩

/-- Cached element record of the mapped family `x`. -/
def wR2C8 : TaskRun := ⟨"i2", "x", 0, RunState.Success⟩

/-- A run whose cache holds the two-record mapped family at slug `x`. -/
def wFrC8 : FlowRun :=
  FlowRun.init ("fr-8") ("nm") ("fid") ("fl") none none RunState.Running
    [wR1C8, wR2C8]

/-- A remote oracle that never finds anything. -/
def wNoRemote : String → Option TaskRun := fun _ => none

/-- The initially cached record at id `i1`, slug `x`. -/
def wR1C9 : TaskRun := ⟨"i1", "x", -1, RunState.Running⟩

/-- The same task run as later fetched remotely: same id and slug, newer
state — a distinguishable fresh instance. -/
def wR1C9x : TaskRun := ⟨"i1", "x", -1, RunState.Success⟩

/-- A run caching exactly one record for slug `x`. -/
def wFrC9 : FlowRun :=
  FlowRun.init ("fr-9") ("nm") ("fid") ("fl") none none RunState.Running [wR1C9]

/-- Remote-by-slug oracle returning the fresh instance. -/
def wRemoteSlugC9 : String → Option TaskRun := fun s =>
  if s = "x" then some wR1C9x else none

/-- A populated coherent run for the coherence witness. -/
def wFrC10 : FlowRun :=
  FlowRun.init ("fr-10") ("nm") ("fid") ("fl") none none RunState.Running
    [⟨"j1", "a", -1, RunState.Success⟩]

/-- Coherence of the two-level cache: every stored pair keys a record by
the record's own task-run id and is registered in the slug index under the
record's own slug, and every id in the slug index resolves in the id
index. -/
def CoherentLists (runs : List (String × TaskRun))
    (sl : List (String × List String)) : Prop :=
  (∀ p ∈ runs, p.2.task_run_id = p.1 ∧ p.1 ∈ (findSlugIds sl p.2.task_slug).getD []) ∧
  (∀ q ∈ sl, ∀ id ∈ q.2, (findRun runs id).isSome = true)

instance (runs : List (String × TaskRun)) (sl : List (String × List String)) :
    Decidable (CoherentLists runs sl) := by
  unfold CoherentLists
  infer_instance

/-- Coherence of a `FlowRun` cache. -/
def FlowRun.Coherent (fr : FlowRun) : Prop :=
  CoherentLists fr._task_runs fr._task_slug_to_task_run_ids

instance (fr : FlowRun) : Decidable fr.Coherent := by
  unfold FlowRun.Coherent
  infer_instance

theorem findRun_setRun (l : List (String × TaskRun)) (k : String) (v : TaskRun)
    (q : String) :
    findRun (setRun l k v) q = if q = k then some v else findRun l q := by
  induction l with
  | nil =>
      by_cases h : q = k
      · subst h
        simp [setRun, findRun]
      · simp [setRun, findRun, h, Ne.symm h]
  | cons p rest ih =>
      obtain ⟨k0, v0⟩ := p
      by_cases h0 : k0 = k
      · subst h0
        by_cases h : q = k0
        · subst h
          simp [setRun, findRun]
        · simp [setRun, findRun, h, Ne.symm h]
      · by_cases h : k0 = q
        · subst h
          simp [setRun, findRun, h0, Ne.symm h0]
        · simp [setRun, findRun, h0, h, ih]

theorem mem_setRun {l : List (String × TaskRun)} {k : String} {v : TaskRun}
    {p : String × TaskRun} (h : p ∈ setRun l k v) : p = (k, v) ∨ p ∈ l := by
  induction l with
  | nil =>
      simp [setRun] at h
      exact Or.inl h
  | cons p0 rest ih =>
      obtain ⟨k0, v0⟩ := p0
      by_cases h0 : k0 = k
      · subst h0
        simp [setRun] at h
        rcases h with h | h
        · exact Or.inl (by simp [h])
        · exact Or.inr (by simp [h])
      · simp [setRun, h0] at h
        rcases h with h | h
        · exact Or.inr (by simp [h])
        · rcases ih h with h2 | h2
          · exact Or.inl h2
          · exact Or.inr (by simp [h2])

theorem setRun_cached {l : List (String × TaskRun)} {k : String} {v : TaskRun}
    (h : findRun l k = some v) : setRun l k v = l := by
  induction l with
  | nil => simp [findRun] at h
  | cons p rest ih =>
      obtain ⟨k0, v0⟩ := p
      by_cases h0 : k0 = k
      · subst h0
        simp [findRun] at h
        simp [setRun, h]
      · simp [findRun, h0] at h
        simp [setRun, h0, ih h]

theorem mem_addId {ids : List String} {id x : String} (h : x ∈ addId ids id) :
    x ∈ ids ∨ x = id := by
  by_cases hm : id ∈ ids
  · simp [addId, hm] at h
    exact Or.inl h
  · simp [addId, hm] at h
    rcases h with h | h
    · exact Or.inl h
    · exact Or.inr h

theorem self_mem_addId (ids : List String) (id : String) : id ∈ addId ids id := by
  by_cases hm : id ∈ ids <;> simp [addId, hm]

theorem subset_addId {ids : List String} {x : String} (id : String)
    (h : x ∈ ids) : x ∈ addId ids id := by
  by_cases hm : id ∈ ids <;> simp [addId, hm, h]

theorem addId_mem {ids : List String} {id : String} (h : id ∈ ids) :
    addId ids id = ids := by
  simp [addId, h]

theorem findSlugIds_setSlug (sl : List (String × List String)) (s id : String)
    (q : String) :
    findSlugIds (setSlug sl s id) q =
      if q = s then some (addId ((findSlugIds sl s).getD []) id)
      else findSlugIds sl q := by
  induction sl with
  | nil =>
      by_cases h : q = s
      · subst h
        simp [setSlug, findSlugIds, addId]
      · simp [setSlug, findSlugIds, h, Ne.symm h]
  | cons p rest ih =>
      obtain ⟨s0, ids⟩ := p
      by_cases h0 : s0 = s
      · subst h0
        by_cases h : q = s0
        · subst h
          simp [setSlug, findSlugIds]
        · simp [setSlug, findSlugIds, h, Ne.symm h]
      · by_cases h : s0 = q
        · subst h
          simp [setSlug, findSlugIds, h0, Ne.symm h0]
        · simp [setSlug, findSlugIds, h0, h, ih]

theorem setSlug_cached {sl : List (String × List String)} {s id : String}
    (h : id ∈ (findSlugIds sl s).getD []) : setSlug sl s id = sl := by
  induction sl with
  | nil => simp [findSlugIds] at h
  | cons p rest ih =>
      obtain ⟨s0, ids⟩ := p
      by_cases h0 : s0 = s
      · subst h0
        simp [findSlugIds] at h
        simp [setSlug, addId_mem h]
      · simp [findSlugIds, h0] at h
        simp [setSlug, h0, ih h]

theorem mem_setSlug {sl : List (String × List String)} {s id : String}
    {q2 : String × List String} (hq2 : q2 ∈ setSlug sl s id) {i : String}
    (hi : i ∈ q2.2) :
    i = id ∨ ∃ ids0, (q2.1, ids0) ∈ sl ∧ i ∈ ids0 := by
  induction sl with
  | nil =>
      simp [setSlug] at hq2
      subst hq2
      simp at hi
      exact Or.inl hi
  | cons p0 rest ih =>
      obtain ⟨s0, ids0⟩ := p0
      by_cases h0 : s0 = s
      · subst h0
        simp [setSlug] at hq2
        rcases hq2 with hq2 | hq2
        · subst hq2
          simp at hi
          rcases mem_addId hi with hh | hh
          · exact Or.inr ⟨ids0, by simp, hh⟩
          · exact Or.inl hh
        · exact Or.inr ⟨q2.2, List.mem_cons_of_mem _ (by
            rcases q2 with ⟨a, b⟩
            exact hq2), hi⟩
      · simp [setSlug, h0] at hq2
        rcases hq2 with hq2 | hq2
        · subst hq2
          exact Or.inr ⟨ids0, by simp, hi⟩
        · rcases ih hq2 with hh | hh
          · exact Or.inl hh
          · obtain ⟨ids1, hmem, hin⟩ := hh
            exact Or.inr ⟨ids1, List.mem_cons_of_mem _ hmem, hin⟩

theorem coherent_add {fr : FlowRun} (t : TaskRun) (h : fr.Coherent) :
    (fr._add_task_run t).Coherent := by
  obtain ⟨h1, h2⟩ := h
  constructor
  · intro p hp
    rcases mem_setRun hp with hp2 | hp2
    · subst hp2
      refine ⟨rfl, ?_⟩
      simp only [FlowRun._add_task_run, findSlugIds_setSlug]
      simp [self_mem_addId]
    · obtain ⟨hid, hsl⟩ := h1 p hp2
      refine ⟨hid, ?_⟩
      simp only [FlowRun._add_task_run, findSlugIds_setSlug]
      by_cases hq : p.2.task_slug = t.task_slug
      · simp [hq, subset_addId _ (hq ▸ hsl)]
      · simp [hq, hsl]
  · intro q hq id hid
    simp only [FlowRun._add_task_run] at hq ⊢
    rw [findRun_setRun]
    by_cases he : id = t.task_run_id
    · simp [he]
    · simp only [he, if_false]
      rcases mem_setSlug hq hid with hh | hh
      · exact (he hh).elim
      · obtain ⟨ids0, hmem, hin⟩ := hh
        exact h2 (q.1, ids0) hmem id hin

theorem coherent_foldl {fr : FlowRun} (l : List TaskRun) (h : fr.Coherent) :
    (l.foldl FlowRun._add_task_run fr).Coherent := by
  induction l generalizing fr with
  | nil => exact h
  | cons t rest ih => exact ih (coherent_add t h)

theorem coherent_init (flow_run_id name flow_id flow_name : String)
    (flow_storage : Option (List String)) (flow_run_config : Option String)
    (state : RunState) (task_runs : List TaskRun) :
    (FlowRun.init flow_run_id name flow_id flow_name flow_storage
      flow_run_config state task_runs).Coherent := by
  apply coherent_foldl
  constructor <;> intro p hp <;> simp at hp

/-- Claim C1: the specified behavior — on a non-interrupt error with the
freshly re-read remote state running, write `Failed` with the interpolated
message, write one error-severity log entry, re-raise the original error —
does not happen: the handler's fresh re-read `FlowRun.from_flow_run_id`
raises `TypeError` (the constructor call omits the required `flow_id`
argument), so the guard performs zero state writes and zero log writes and
the `TypeError` propagates instead of the original error. -/
theorem fail_flow_run_on_exception_running_bug :
    fail_flow_run_on_exception ("fr-1") (some ("Failed to execute flow: \x7bexc\x7d"))
      (some wDataRunning) [] (.err ("ValueError(\x27boom\x27)"))
    = (⟨[], []⟩, .raisedPy (.typeMissingArg ("FlowRun.__init__") ("flow_id"))) := by
  decide

/-- Claim C2: with the remote state already terminal, the guard indeed
performs zero state writes and zero log writes, but it does not re-raise
the original error either: the fresh re-read crashes with the constructor
`TypeError` first (same crash as in the running case — the state is never
even consulted), and that `TypeError` propagates in place of the original
error. -/
theorem fail_flow_run_on_exception_not_running_bug :
    fail_flow_run_on_exception ("fr-2") (some ("Failed to execute flow: \x7bexc\x7d"))
      (some wDataFinished) [] (.err ("RuntimeError(\x27late\x27)"))
    = (⟨[], []⟩, .raisedPy (.typeMissingArg ("FlowRun.__init__") ("flow_id"))) := by
  decide

theorem iterMappedLoop_yields (remote : Int → Option TaskRun) (cr : Bool)
    (f : Nat → TaskRun) :
    ∀ (k i fuel : Nat) (fr : FlowRun),
      (∀ j : Nat, j < k → remote (Int.ofNat (i + j)) = some (f (i + j))) →
      remote (Int.ofNat (i + k)) = none →
      k + 1 ≤ fuel →
      (iterMappedLoop remote cr fr i fuel).1 = (List.range k).map (fun j => f (i + j)) := by
  intro k
  induction k with
  | zero =>
      intro i fuel fr _ h2 h3
      match fuel, h3 with
      | fuel + 1, _ =>
          simp only [Nat.add_zero] at h2
          simp only [iterMappedLoop]
          rw [h2]
          rfl
  | succ k ih =>
      intro i fuel fr h1 h2 h3
      match fuel, h3 with
      | fuel + 1, h3 =>
          have h0 : remote (Int.ofNat i) = some (f i) := by
            have := h1 0 (Nat.succ_pos k)
            simpa using this
          have hrec := ih (i + 1) fuel
            (if cr then fr._add_task_run (f i) else fr)
            (fun j hj => by
              have := h1 (j + 1) (by omega)
              have he : i + (j + 1) = i + 1 + j := by omega
              rw [he] at this
              exact this)
            (by
              have he : i + (k + 1) = i + 1 + k := by omega
              rw [he] at h2
              exact h2)
            (by omega)
          simp only [iterMappedLoop, h0]
          rw [hrec, List.range_succ_eq_map]
          simp only [List.map_cons, List.map_map]
          congr 1
          refine List.map_congr_left ?_
          intro a _
          simp only [Function.comp_apply]
          congr 1
          omega

/-- Claim C3: for a mapped task whose base record is mapped and whose
remote store holds per-index records exactly at the contiguous indices
`0..N-1`, draining `iter_mapped` yields exactly the `N` records in index
order and terminates at the first missing index (any sufficient fuel gives
the same finite sequence). -/
theorem iter_mapped_contiguous (fr : FlowRun) (slug : String) (cr : Bool)
    (remote : String → Int → Option TaskRun) (N fuel : Nat) (f : Nat → TaskRun)
    (base : TaskRun)
    (hbase : remote slug (-1) = some base)
    (hmapped : base.state.is_mapped = true)
    (hsome : ∀ i : Fin N, remote slug (Int.ofNat i.val) = some (f i.val))
    (hnone : remote slug (Int.ofNat N) = none)
    (hfuel : N + 1 ≤ fuel) :
    (FlowRun.iter_mapped fr none (some slug) cr remote fuel).result
      = .ok ((List.range N).map f) := by
  have hloop := iterMappedLoop_yields (remote slug) cr f N 0 fuel fr
    (fun j hj => by simpa using hsome ⟨j, hj⟩)
    (by simpa using hnone)
    hfuel
  simp only [FlowRun.iter_mapped, iterResolveSlug, hbase, hmapped]
  simp only [Bool.true_eq_false, if_false]
  rw [hloop]
  simp

/-- Witness for C3: the two-element family at slug `x` is drained to
exactly its two records, in index order. -/
theorem iter_mapped_contiguous_witness :
    (FlowRun.iter_mapped wFrEmpty none (some ("x")) true wRemoteC3 3).result
      = .ok ((List.range 2).map wFC3) :=
  iter_mapped_contiguous wFrEmpty ("x") true wRemoteC3 2 3 wFC3 wBaseC3
    (by decide) (by decide) (by decide) (by decide) (by decide)

/-- Claim C4: when the fetched base record (map index `-1`) is not in a
mapped state, `iter_mapped` fails with the invalid-operation error (the
source's `TypeError`) before any per-index fetch: the fetch trace is
exactly `[-1]` and the cache is untouched. -/
theorem iter_mapped_not_mapped (fr : FlowRun) (slug : String) (cr : Bool)
    (remote : String → Int → Option TaskRun) (fuel : Nat) (base : TaskRun)
    (hbase : remote slug (-1) = some base)
    (hnotmapped : base.state.is_mapped = false) :
    FlowRun.iter_mapped fr none (some slug) cr remote fuel
      = ⟨.error (.notMapped base.task_run_id), fr, [-1]⟩ := by
  simp [FlowRun.iter_mapped, iterResolveSlug, hbase, hnotmapped]

/-- Witness for C4: a non-mapped base record at slug `y` makes the
iterator fail with the invalid-operation error with only the base fetch
performed. -/
theorem iter_mapped_not_mapped_witness :
    FlowRun.iter_mapped wFrEmpty none (some ("y")) true wRemoteC4 5
      = ⟨.error (.notMapped (wBaseC4.task_run_id)), wFrEmpty, [-1]⟩ :=
  iter_mapped_not_mapped wFrEmpty ("y") true wRemoteC4 5 wBaseC4
    (by decide) (by decide)

theorem task_run_ids_cache_fields (fr : FlowRun) (remoteIds : Option (List String)) :
    (fr.task_run_ids remoteIds).2._task_runs = fr._task_runs ∧
    (fr.task_run_ids remoteIds).2._task_slug_to_task_run_ids
      = fr._task_slug_to_task_run_ids := by
  unfold FlowRun.task_run_ids
  rcases h : fr._task_run_ids with _ | ⟨_ | ⟨x, xs⟩⟩ <;>
    rcases remoteIds with _ | ids <;>
    simp <;>
    split <;>
    simp

/-- Claim C5: when the run's task-run identifiers number more than 1000,
`get_all` fails with the resource-limit error, performs no bulk fetch, and
leaves the task-run record cache (both levels) unchanged. -/
theorem get_all_over_limit (fr : FlowRun) (remoteIds : Option (List String))
    (remoteBulk : List TaskRun) (ids : List String) (fr1 : FlowRun)
    (hids : fr.task_run_ids remoteIds = (.ok ids, fr1))
    (hlen : 1000 < ids.length) :
    fr.get_all remoteIds remoteBulk = (.error .resourceLimit, fr1, false) ∧
    fr1._task_runs = fr._task_runs ∧
    fr1._task_slug_to_task_run_ids = fr._task_slug_to_task_run_ids := by
  refine ⟨?_, ?_, ?_⟩
  · unfold FlowRun.get_all
    rw [hids]
    simp [hlen]
  · have := (task_run_ids_cache_fields fr remoteIds).1
    rw [hids] at this
    exact this
  · have := (task_run_ids_cache_fields fr remoteIds).2
    rw [hids] at this
    exact this

/-- Witness for C5: a run with 1001 remote task-run ids is refused with
the resource-limit error, no bulk fetch, cache unchanged. -/
theorem get_all_over_limit_witness :
    wFrC5.get_all (some wIdsC5) [] = (.error .resourceLimit, wFrC5, false) ∧
    wFrC5._task_runs = wFrC5._task_runs ∧
    wFrC5._task_slug_to_task_run_ids = wFrC5._task_slug_to_task_run_ids :=
  get_all_over_limit wFrC5 (some wIdsC5) [] wIdsC5 wFrC5 rfl
    (by simp only [wIdsC5, List.length_replicate]; norm_num)

/-- Claim C6: on the legacy path (no run configuration) the claimed
behavior — environment setup-then-execute under the guard, then a freshly
refreshed `FlowRun` with the cache carried over — does not happen.  First,
`execute_flow_run` crashes already at line 29: `FlowRun.from_flow_run_id`
raises `TypeError` (the constructor call omits the required `flow_id`),
before any stage runs.  Second, even for a `FlowRun` built as `__init__`
specifies, the stage sequence does invoke setup then execute, but then
raises `UnboundLocalError` at the final log statement (line 84 reads
`flow_state`, which the legacy branch never assigns) instead of returning
the refreshed run. -/
theorem execute_flow_run_legacy_bug :
    execute_flow_run wEnvC6 ("fr-6") (some wFlowC6) wKwargsC6
      = (.error (.typeMissingArg ("FlowRun.__init__") ("flow_id")), []) ∧
    execute_flow_run_stages wEnvC6 wFrC6 (some wFlowC6) wKwargsC6
      = (.error (.unboundLocal ("flow_state")), [Ev.envSetup, Ev.envExecute]) := by
  exact ⟨by decide, by decide⟩

theorem heapGet_append_lt {α : Type} :
    ∀ (l l2 : List α) (i : Nat), i < l.length →
      heapGet (l ++ l2) i = heapGet l i := by
  intro l l2
  induction l with
  | nil =>
      intro i hi
      simp at hi
  | cons x rest ih =>
      intro i hi
      cases i with
      | zero => rfl
      | succ j => exact ih j (by simpa using hi)

theorem heapGet_concat_len {α : Type} :
    ∀ (l : List α) (x : α), heapGet (l ++ [x]) l.length = some x := by
  intro l x
  induction l with
  | nil => rfl
  | cons y rest ih => simpa using ih

theorem heapGet_set_ne {α : Type} :
    ∀ (l : List α) (n : Nat) (a : α) (i : Nat), i ≠ n →
      heapGet (l.set n a) i = heapGet l i := by
  intro l
  induction l with
  | nil =>
      intro n a i _
      rfl
  | cons x rest ih =>
      intro n a i hne
      cases n with
      | zero =>
          cases i with
          | zero => exact (hne rfl).elim
          | succ j => rfl
      | succ m =>
          cases i with
          | zero => rfl
          | succ j => exact ih m a j (fun h => hne (by rw [h]))

theorem heapGet_set_len {α : Type} :
    ∀ (l : List α) (n : Nat) (a : α), n < l.length →
      heapGet (l.set n a) n = some a := by
  intro l
  induction l with
  | nil =>
      intro n a hn
      simp at hn
  | cons x rest ih =>
      intro n a hn
      cases n with
      | zero => rfl
      | succ m => exact ih m a (by simpa using hn)

theorem load_storage_secrets_spec :
    ∀ (names : List String) (ambient : Smap) (resolve : String → Nat) (k : String),
      load_storage_secrets ambient resolve names k
        = if k ∈ names then some (resolve k) else ambient k := by
  intro names
  induction names with
  | nil =>
      intro ambient resolve k
      simp [load_storage_secrets]
  | cons s rest ih =>
      intro ambient resolve k
      show load_storage_secrets (updateSmap ambient s (resolve s)) resolve rest k = _
      rw [ih]
      by_cases hr : k ∈ rest
      · simp [hr]
      · by_cases hs : k = s
        · subst hs
          simp [hr, updateSmap]
        · simp [hr, hs, updateSmap]

/-- Claim C7: the execution context's secrets mapping equals the union of
ambient, storage-declared and caller-supplied secrets with caller-supplied
values winning on collision (first conjunct: the source's sequential
dict-update composition agrees pointwise with the spec's union; second
conjunct: the concrete scenario ambient `A=1`, storage `B=2`, caller
`B=3, C=4` gives `A=1, B=3, C=4`); and because the source operates on a
deep copy, the merge never mutates the caller's options: in the heap model
every dict the caller owned is bytewise unchanged after
`build_run_kwargs_heap` (third conjunct). -/
theorem context_merge :
    (∀ (ambient : Smap) (resolve : String → Nat) (names : List String)
      (caller : Smap) (k : String),
        merged_secrets (load_storage_secrets ambient resolve names) caller k
          = spec_union_secrets ambient names resolve caller k) ∧
    (merged_secrets (load_storage_secrets wAmbC7 wResC7 [("B")]) wCallerC7 ("A") = some 1 ∧
     merged_secrets (load_storage_secrets wAmbC7 wResC7 [("B")]) wCallerC7 ("B") = some 3 ∧
     merged_secrets (load_storage_secrets wAmbC7 wResC7 [("B")]) wCallerC7 ("C") = some 4 ∧
     merged_secrets (load_storage_secrets wAmbC7 wResC7 [("B")]) wCallerC7 ("D") = none) ∧
    (∀ (st : Store) (a : Nat) (secrets : Smap) (ex : String),
      (∀ i, i < st.kwargsHeap.length →
        heapGet ((build_run_kwargs_heap st a secrets ex).1).kwargsHeap i
          = heapGet st.kwargsHeap i) ∧
      (∀ j, j < st.ctxHeap.length →
        heapGet ((build_run_kwargs_heap st a secrets ex).1).ctxHeap j
          = heapGet st.ctxHeap j)) := by
  refine ⟨?_, ⟨by decide, by decide, by decide, by decide⟩, ?_⟩
  · intro ambient resolve names caller k
    unfold merged_secrets spec_union_secrets
    cases hc : caller k <;> simp [hc, load_storage_secrets_spec]
  · intro st a secrets ex
    obtain ⟨kh, ch⟩ := st
    rcases hkw : heapGet kh a with _ | kw
    · constructor <;> intro i hi <;>
        simp [build_run_kwargs_heap, deepcopyKwargs, hkw]
    · rcases hc : kw.context with _ | ca0
      · -- the copied kwargs dict has no context: one fresh context dict is
        -- allocated; every write targets the two fresh addresses
        constructor <;> intro i hi <;>
          simp only [build_run_kwargs_heap, deepcopyKwargs, hkw, hc,
            heapGet_concat_len] <;>
          rw [heapGet_set_len _ _ _ (by simp)] <;>
          (try dsimp only) <;>
          split <;>
          (try dsimp only) <;>
          first
            | (rw [heapGet_set_ne _ _ _ i (by simp at hi; omega),
                heapGet_set_ne _ _ _ i (by simp at hi; omega),
                heapGet_append_lt _ _ i (by simpa using hi)])
            | (rw [heapGet_set_ne _ _ _ i (by simp at hi; omega),
                heapGet_append_lt _ _ i (by simpa using hi)])
            | rfl
      · -- the copied kwargs dict points at a copied context dict; writes
        -- target only the two fresh addresses
        constructor <;> intro i hi <;>
          simp only [build_run_kwargs_heap, deepcopyKwargs, hkw, hc,
            heapGet_concat_len] <;>
          (try dsimp only) <;>
          split <;>
          (try dsimp only) <;>
          first
            | (rw [heapGet_set_ne _ _ _ i (by simp at hi; omega),
                heapGet_set_ne _ _ _ i (by simp at hi; omega),
                heapGet_append_lt _ _ i (by simpa using hi)])
            | (rw [heapGet_set_ne _ _ _ i (by simp at hi; omega),
                heapGet_append_lt _ _ i (by simpa using hi)])
            | (rw [heapGet_append_lt _ _ i (by simpa using hi)])
            | rfl

/-- Witness for C7: on a concrete one-dict store the caller's kwargs dict
at address 0 is unchanged by the merge. -/
theorem context_merge_witness :
    0 < wStoreC7.kwargsHeap.length ∧
    heapGet (build_run_kwargs_heap wStoreC7 0 wAmbC7 ("ex")).1.kwargsHeap 0
      = heapGet wStoreC7.kwargsHeap 0 :=
  ⟨by decide, (context_merge.2.2 wStoreC7 0 wAmbC7 ("ex")).1 0 (by decide)⟩

theorem findRun_mem {l : List (String × TaskRun)} {id : String} {r : TaskRun}
    (h : findRun l id = some r) : (id, r) ∈ l := by
  induction l with
  | nil => simp [findRun] at h
  | cons p rest ih =>
      obtain ⟨k0, v0⟩ := p
      by_cases h0 : k0 = id
      · subst h0
        simp [findRun] at h
        simp [h]
      · simp [findRun, h0] at h
        exact List.mem_cons_of_mem _ (ih h)

theorem add_task_run_cached {fr : FlowRun} {r : TaskRun} (hco : fr.Coherent)
    (hfind : findRun fr._task_runs r.task_run_id = some r) :
    fr._add_task_run r = fr := by
  have hmem := findRun_mem hfind
  obtain ⟨hid, hsl⟩ := hco.1 _ hmem
  unfold FlowRun._add_task_run
  rw [setRun_cached hfind, setSlug_cached hsl]

theorem lookupBase_finds (fr : FlowRun) (r : TaskRun) :
    ∀ ids : List String,
      (∀ id ∈ ids, (findRun fr._task_runs id).isSome = true) →
      r.task_run_id ∈ ids →
      findRun fr._task_runs r.task_run_id = some r →
      r.map_index = -1 →
      (∀ id ∈ ids, ∀ t ∈ (findRun fr._task_runs id).toList, t.map_index = -1 → t = r) →
      lookupBase fr ids = .ok (some r) := by
  intro ids
  induction ids with
  | nil =>
      intro _ hmem
      simp at hmem
  | cons id0 rest ih =>
      intro hall hmem hfind hbase huniq
      have h0 : (findRun fr._task_runs id0).isSome = true := hall id0 (by simp)
      rcases ht0 : findRun fr._task_runs id0 with _ | t0
      · rw [ht0] at h0
        simp at h0
      · simp only [lookupBase, ht0]
        by_cases hm : t0.map_index = -1
        · have ht : t0 = r := huniq id0 (by simp) t0 (by rw [ht0]; simp) hm
          rw [if_pos hm, ht]
        · rw [if_neg hm]
          apply ih
          · intro id hid
            exact hall id (by simp [hid])
          · rcases List.mem_cons.mp hmem with he | he
            · exfalso
              rw [← he, hfind] at ht0
              injection ht0 with hh
              exact hm (by rw [← hh]; exact hbase)
            · exact he
          · exact hfind
          · exact hbase
          · intro id hid t htl hmi
            exact huniq id (by simp [hid]) t htl hmi

/-- Claim C8: when the cache holds a mapped family (at least two ids) for
the requested slug, `get` returns the cached base record (map index `-1`)
with no remote call and no cache change (first conjunct; the uniqueness
hypothesis reflects the data-model invariant of one base record per
family); when no cached base record exists among them, `get` falls through
to exactly one remote fetch by slug (second conjunct). -/
theorem get_mapped_family (fr : FlowRun) (s : String) :
    (∀ (r : TaskRun) (rById rSlug : String → Option TaskRun),
      1 < (fr.slugIds s).length →
      (∀ id ∈ fr.slugIds s, (findRun fr._task_runs id).isSome = true) →
      r.task_run_id ∈ fr.slugIds s →
      findRun fr._task_runs r.task_run_id = some r →
      r.map_index = -1 →
      (∀ id ∈ fr.slugIds s, ∀ t ∈ (findRun fr._task_runs id).toList,
        t.map_index = -1 → t = r) →
      FlowRun.get fr none (some s) none rById rSlug = ⟨.ok r, fr, []⟩) ∧
    (∀ (rById rSlug : String → Option TaskRun),
      1 < (fr.slugIds s).length →
      lookupBase fr (fr.slugIds s) = .ok none →
      FlowRun.get fr none (some s) none rById rSlug
        = (match rSlug s with
           | none => ⟨.error (.remoteEmpty s), fr, [.bySlug s]⟩
           | some r2 => ⟨.ok r2, fr._add_task_run r2, [.bySlug s]⟩)) := by
  constructor
  · intro r rById rSlug hlen hall hmem hfind hbase huniq
    have hlb := lookupBase_finds fr r (fr.slugIds s) hall hmem hfind hbase huniq
    simp only [FlowRun.get, resolveSlugArgs]
    rw [if_pos hlen, hlb]
  · intro rById rSlug hlen hnb
    simp only [FlowRun.get, resolveSlugArgs]
    rw [if_pos hlen, hnb]

/-- Witness for C8: with cached ids `i1` (map index `-1`) and `i2` (map
index `0`) for slug `x`, `get(task_slug="x")` returns the record of `i1`
with no remote call and an unchanged run. -/
theorem get_mapped_family_witness :
    FlowRun.get wFrC8 none (some ("x")) none wNoRemote wNoRemote
      = ⟨.ok wR1C8, wFrC8, []⟩ :=
  (get_mapped_family wFrC8 ("x")).1 wR1C8 wNoRemote wNoRemote (by decide)
    (by decide) (by decide) (by decide) (by decide) (by decide)

theorem get_run_cases (fr : FlowRun) (task : Option TaskObj) (ts tid : Option String)
    (rById rSlug : String → Option TaskRun) :
    (FlowRun.get fr task ts tid rById rSlug).run = fr ∨
    ∃ r, (FlowRun.get fr task ts tid rById rSlug).run = fr._add_task_run r := by
  unfold FlowRun.get finishById
  dsimp only
  repeat' split <;>
    first
      | exact Or.inl rfl
      | exact Or.inr ⟨_, rfl⟩
      | skip

/-- Counterexample to claim C9 as stated: the id `i1` is cached (with the
original record), yet a later slug lookup on `x` — whose family has only
one cached id, so the mapped-family short cut does not apply — performs a
remote fetch and overwrites the cached record for `i1` with the freshly
fetched instance: a cached id IS implicitly refreshed by a later lookup. -/
theorem get_cached_refresh_counterexample :
    findRun wFrC9._task_runs ("i1") = some wR1C9 ∧
    FlowRun.get wFrC9 none (some ("x")) none wNoRemote wRemoteSlugC9
      = ⟨.ok wR1C9x, wFrC9._add_task_run wR1C9x, [.bySlug ("x")]⟩ ∧
    findRun ((FlowRun.get wFrC9 none (some ("x")) none wNoRemote
      wRemoteSlugC9).run)._task_runs ("i1") = some wR1C9x ∧
    wR1C9x ≠ wR1C9 := by
  decide

/-- Claim C9 (amended): a `get` by a cached id returns the identical cached
record with no remote call and leaves the cache unchanged (first conjunct,
for a coherent cache), and a cached id is never evicted by any later `get`
(second conjunct); however — unlike the original claim — a cached id can be
implicitly refreshed: a slug lookup that falls through to a remote fetch
overwrites the stored record for the fetched record's id. -/
theorem get_cached_id_amended :
    (∀ (fr : FlowRun) (id : String) (r : TaskRun)
      (rById rSlug : String → Option TaskRun),
        fr.Coherent →
        findRun fr._task_runs id = some r →
        FlowRun.get fr none none (some id) rById rSlug = ⟨.ok r, fr, []⟩) ∧
    (∀ (fr : FlowRun) (task : Option TaskObj) (ts tid : Option String)
      (rById rSlug : String → Option TaskRun) (id : String),
        (findRun fr._task_runs id).isSome = true →
        (findRun ((FlowRun.get fr task ts tid rById rSlug).run)._task_runs id).isSome
          = true) := by
  constructor
  · intro fr id r rById rSlug hco hfind
    have hid : r.task_run_id = id := (hco.1 _ (findRun_mem hfind)).1
    have hfind2 : findRun fr._task_runs r.task_run_id = some r := by
      rw [hid]
      exact hfind
    have hadd := add_task_run_cached hco hfind2
    simp only [FlowRun.get, resolveSlugArgs, hfind, finishById]
    rw [hadd]
  · intro fr task ts tid rById rSlug id h
    rcases get_run_cases fr task ts tid rById rSlug with hcase | ⟨r, hcase⟩
    · rw [hcase]
      exact h
    · rw [hcase]
      simp only [FlowRun._add_task_run]
      rw [findRun_setRun]
      by_cases he : id = r.task_run_id
      · simp [he]
      · simp only [he, if_false]
        exact h

/-- Witness for the amended C9: looking up the cached id `i1` returns the
cached instance, with no remote call and the run unchanged. -/
theorem get_cached_id_amended_witness :
    FlowRun.get wFrC9 none none (some ("i1")) wNoRemote wNoRemote
      = ⟨.ok wR1C9, wFrC9, []⟩ :=
  get_cached_id_amended.1 wFrC9 ("i1") wR1C9 wNoRemote wNoRemote (by decide)
    (by decide)

theorem iterLoop_coherent (remote : Int → Option TaskRun) (cr : Bool) :
    ∀ (fuel i : Nat) (fr : FlowRun), fr.Coherent →
      ((iterMappedLoop remote cr fr i fuel).2.1).Coherent := by
  intro fuel
  induction fuel with
  | zero =>
      intro i fr h
      exact h
  | succ fuel ih =>
      intro i fr h
      rcases hr : remote (Int.ofNat i) with _ | t
      · simp only [iterMappedLoop, hr]
        exact h
      · simp only [iterMappedLoop, hr]
        apply ih
        cases cr
        · rw [if_neg (by simp)]
          exact h
        · rw [if_pos rfl]
          exact coherent_add t h

/-- Claim C10: cache coherence — every stored record is keyed by its own
task-run id and registered in the slug index under its own slug, and every
indexed id resolves — holds after construction and is preserved by every
cache-mutating operation: `get`, `iter_mapped` (with or without caching)
and `get_all`. -/
theorem cache_coherent_ops :
    (∀ (frid nm fid fnm : String) (stg : Option (List String))
      (cfg : Option String) (st : RunState) (trs : List TaskRun),
        (FlowRun.init frid nm fid fnm stg cfg st trs).Coherent) ∧
    (∀ (fr : FlowRun) (task : Option TaskObj) (ts tid : Option String)
      (rById rSlug : String → Option TaskRun),
        fr.Coherent → ((FlowRun.get fr task ts tid rById rSlug).run).Coherent) ∧
    (∀ (fr : FlowRun) (task : Option TaskObj) (ts : Option String) (cr : Bool)
      (remote : String → Int → Option TaskRun) (fuel : Nat),
        fr.Coherent → ((FlowRun.iter_mapped fr task ts cr remote fuel).run).Coherent) ∧
    (∀ (fr : FlowRun) (rIds : Option (List String)) (rBulk : List TaskRun),
        fr.Coherent → ((fr.get_all rIds rBulk).2.1).Coherent) := by
  refine ⟨?_, ?_, ?_, ?_⟩
  · intro frid nm fid fnm stg cfg st trs
    exact coherent_init frid nm fid fnm stg cfg st trs
  · intro fr task ts tid rById rSlug h
    rcases get_run_cases fr task ts tid rById rSlug with hcase | ⟨r, hcase⟩
    · rw [hcase]
      exact h
    · rw [hcase]
      exact coherent_add r h
  · intro fr task ts cr remote fuel h
    unfold FlowRun.iter_mapped
    repeat' split <;>
      first
        | exact h
        | exact iterLoop_coherent _ cr fuel 0 fr h
        | skip
  · intro fr rIds rBulk h
    have hfields := task_run_ids_cache_fields fr rIds
    rcases hti : fr.task_run_ids rIds with ⟨res, fr1⟩
    rw [hti] at hfields
    have hco1 : fr1.Coherent := by
      unfold FlowRun.Coherent at h ⊢
      rw [hfields.1, hfields.2]
      exact h
    unfold FlowRun.get_all
    rw [hti]
    rcases res with e | ids
    · exact hco1
    · by_cases hlen : ids.length > 1000
      · simp only [hlen, if_true]
        exact hco1
      · simp only [hlen, if_false]
        exact coherent_foldl rBulk hco1

/-- Witness for C10: a concrete coherent run stays coherent across a `get`
that performs (and fails) a remote fetch. -/
theorem cache_coherent_ops_witness :
    wFrC10.Coherent ∧
    ((FlowRun.get wFrC10 none (some ("a")) none wNoRemote wNoRemote).run).Coherent :=
  ⟨by decide,
   cache_coherent_ops.2.1 wFrC10 none (some ("a")) none wNoRemote wNoRemote (by decide)⟩
